import Mathlib

set_option maxRecDepth 4000

/-!
Verification of the tcp-info repository: a shallow embedding of the
`tcpinfo` attribute decoders and differ (src/tcpinfo/tcpinfo.go and
src/unnamed/part_004) and of the `saver` package (src/saver/saver.go),
together with theorems settling the frozen specification claims.

Bytes are modelled as `Nat`, byte slices as `List Nat`, Go `time.Time`
values as `Int` (seconds), and Go maps as association lists.
-/

namespace TcpInfo

/-! ### C struct layout

The Go code obtains `LastDataSentOffset`, `PmtuOffset` and the struct
sizes with `unsafe.Offsetof` / `unsafe.Sizeof`.  We reproduce the
C/Go layout rules (each field aligned to its size, struct size rounded
up to the maximal field alignment) over an explicit field list copied
from the source structs. -/

/-- Primitive field types appearing in the embedded structs. -/
inductive CType where
  | u8 : CType
  | u16 : CType
  | u32 : CType
  | u64 : CType
  | i64 : CType
deriving DecidableEq

/-- Size in bytes of a primitive field. -/
def CType.size : CType → Nat
  | .u8 => 1
  | .u16 => 2
  | .u32 => 4
  | .u64 => 8
  | .i64 => 8

/-- Alignment of a primitive field (equal to its size on linux/amd64). -/
def CType.align (t : CType) : Nat := t.size

/-- Round `off` up to the next multiple of `a`. -/
def alignUp (off a : Nat) : Nat := ((off + a - 1) / a) * a

/-- Offset of the field named `name`, walking the layout like the Go
compiler does: each field starts at its alignment boundary. -/
def fieldOffsetAux : List (String × CType) → String → Nat → Option Nat
  | [], _, _ => none
  | (n, t) :: rest, name, off =>
    let o := alignUp off t.align
    if n = name then some o else fieldOffsetAux rest name (o + t.size)

def fieldOffset (fields : List (String × CType)) (name : String) : Option Nat :=
  fieldOffsetAux fields name 0

/-- End offset of the last field. -/
def fieldsEnd (fields : List CType) : Nat :=
  fields.foldl (fun off t => alignUp off t.align + t.size) 0

/-- Size of a struct with the given field types: end offset rounded up
to the maximal field alignment. -/
def structSize (fields : List CType) : Nat :=
  alignUp (fieldsEnd fields) (fields.foldl (fun m t => max m t.align) 1)

/-- Field list of `LinuxTCPInfo` (src/tcpinfo/tcpinfo.go lines 192-261,
identical layout in src/unnamed/part_004 lines 87-156). -/
def linuxTCPInfoFields : List (String × CType) := [
  ("state", .u8), ("caState", .u8), ("retransmits", .u8), ("probes", .u8),
  ("backoff", .u8), ("options", .u8), ("wscale", .u8), ("appLimited", .u8),
  ("rto", .u32), ("ato", .u32), ("sndMss", .u32), ("rcvMss", .u32),
  ("unacked", .u32), ("sacked", .u32), ("lost", .u32), ("retrans", .u32),
  ("fackets", .u32),
  ("lastDataSent", .u32), ("lastAckSent", .u32), ("lastDataRecv", .u32),
  ("lastAckRecv", .u32),
  ("pmtu", .u32), ("rcvSsThresh", .u32), ("rtt", .u32), ("rttvar", .u32),
  ("sndSsThresh", .u32), ("sndCwnd", .u32), ("advmss", .u32),
  ("reordering", .u32),
  ("rcvRtt", .u32), ("rcvSpace", .u32),
  ("totalRetrans", .u32),
  ("pacingRate", .i64), ("maxPacingRate", .i64),
  ("bytesAcked", .u64), ("bytesReceived", .u64),
  ("segsOut", .u32), ("segsIn", .u32),
  ("notsentBytes", .u32), ("minRtt", .u32),
  ("dataSegsIn", .u32), ("dataSegsOut", .u32),
  ("deliveryRate", .u64),
  ("busyTime", .i64), ("rwndLimited", .i64), ("sndbufLimited", .i64),
  ("delivered", .u32), ("deliveredCe", .u32),
  ("bytesSent", .u64), ("bytesRetrans", .u64),
  ("dsackDups", .u32), ("reordSeen", .u32)]

/-- `unsafe.Sizeof(LinuxTCPInfo{})`. -/
def linuxTCPInfoSize : Nat := structSize (linuxTCPInfoFields.map (·.2))

/-- `LastDataSentOffset = unsafe.Offsetof(LinuxTCPInfo{}.lastDataSent)`. -/
def lastDataSentOffset : Nat := (fieldOffset linuxTCPInfoFields "lastDataSent").getD 0

/-- `PmtuOffset = unsafe.Offsetof(LinuxTCPInfo{}.pmtu)`. -/
def pmtuOffset : Nat := (fieldOffset linuxTCPInfoFields "pmtu").getD 0

/-- Field list of `MemInfo` (src/tcpinfo/tcpinfo.go lines 311-316). -/
def memInfoFields : List CType := [.u32, .u32, .u32, .u32]

/-- `unsafe.Sizeof(MemInfo{})`. -/
def memInfoSize : Nat := structSize memInfoFields

/-- Field list of `BBRInfo` (src/tcpinfo/tcpinfo.go lines 343-348):
Bw int64; MinRtt, PacingGain, CwndGain uint32. -/
def bbrInfoFields : List CType := [.i64, .u32, .u32, .u32]

/-- `unsafe.Sizeof(BBRInfo{})`. -/
def bbrInfoSize : Nat := structSize bbrInfoFields

/-- Field list of `SocketMemInfo` (src/tcpinfo/tcpinfo.go lines 291-300). -/
def socketMemInfoFields : List CType := [.u32, .u32, .u32, .u32, .u32, .u32, .u32, .u32, .u32]

/-- `unsafe.Sizeof(SocketMemInfo{})`. -/
def socketMemInfoSize : Nat := structSize socketMemInfoFields

/-! ### MaybeCopy and the attribute decoders -/

/-- Result of `MaybeCopy`: the byte buffer the returned pointer views,
plus whether that buffer is a freshly allocated copy (`fresh = true`,
the `len(src) < size` branch) or the input slice viewed in place. -/
structure ViewBuf where
  buf : List Nat
  fresh : Bool
deriving DecidableEq

/-- `MaybeCopy` (src/tcpinfo/tcpinfo.go lines 272-280): if the source is
shorter than `size`, copy it into a fresh zeroed buffer of length
`size` (`make([]byte, size)` zero-fills; `copy` transfers the
`len(src)` bytes); otherwise return a view of the source itself. -/
def MaybeCopy (src : List Nat) (size : Nat) : ViewBuf :=
  if src.length < size then
    ⟨src ++ List.replicate (size - src.length) 0, true⟩
  else
    ⟨src, false⟩

/-- `RouteAttrValue.ToLinuxTCPInfo` (src/tcpinfo/tcpinfo.go lines 284-287):
view the raw value as a `LinuxTCPInfo`, copying if short. -/
def ToLinuxTCPInfo (raw : List Nat) : ViewBuf :=
  MaybeCopy raw linuxTCPInfoSize

/-- `RouteAttrValue.ToSockMemInfo` (src/tcpinfo/tcpinfo.go lines 305-308). -/
def ToSockMemInfo (raw : List Nat) : ViewBuf :=
  MaybeCopy raw socketMemInfoSize

/-- `RouteAttrValue.ToMemInfo` (src/tcpinfo/tcpinfo.go lines 319-322). -/
def ToMemInfo (raw : List Nat) : ViewBuf :=
  MaybeCopy raw memInfoSize

/-- `RouteAttrValue.ToBBRInfo` (src/tcpinfo/tcpinfo.go lines 352-355).
NOTE: the source computes `structSize := (int)(unsafe.Sizeof(MemInfo{}))`
— the size of `MemInfo`, not of `BBRInfo` — and that is reproduced here. -/
def ToBBRInfo (raw : List Nat) : ViewBuf :=
  MaybeCopy raw memInfoSize

/-! ### The differ: `Compare` (src/unnamed/part_004 lines 240-295) -/

/-- `inetdiag.INET_DIAG_INFO` (value 2 in linux/inet_diag.h). -/
def INET_DIAG_INFO : Nat := 2

/-- Modelled from the spec: the `inetdiag.ParsedMessage` type that
`Compare` takes is declared in the `inetdiag` package, which is not under
src/.  Per the spec a record carries the TCP state from its `InetDiagMsg`
header and "a mapping from attribute-type to RouteAttr"; the container is
the fixed-size array indexed by attribute type that `Compare` indexes with
`previous.Attributes[tp]` and ranges over with `for tp := range
previous.Attributes`, a `nil` entry meaning the attribute is absent. -/
structure ParsedMessage where
  idiagState : Nat
  attributes : List (Option (List Nat))
deriving DecidableEq

/-- `m.Attributes[tp]`: the attribute of type `tp`, `none` when absent. -/
def getAttr (m : ParsedMessage) (tp : Nat) : Option (List Nat) :=
  (m.attributes.getD tp none)

/-- `ChangeType` (src/unnamed/part_004 lines 207-219), constructors in
the source's iota order. -/
inductive ChangeType where
  | NoMajorChange : ChangeType
  | IDiagStateChange : ChangeType
  | NoTCPInfo : ChangeType
  | NewAttribute : ChangeType
  | LostAttribute : ChangeType
  | AttributeLength : ChangeType
  | StateOrCounterChange : ChangeType
  | PacketCountChange : ChangeType
  | Other : ChangeType
deriving DecidableEq

/-- The integer value of a `ChangeType` constant (iota order). -/
def ChangeType.toNat : ChangeType → Nat
  | .NoMajorChange => 0
  | .IDiagStateChange => 1
  | .NoTCPInfo => 2
  | .NewAttribute => 3
  | .LostAttribute => 4
  | .AttributeLength => 5
  | .StateOrCounterChange => 6
  | .PacketCountChange => 7
  | .Other => 8

/-- One iteration of the attribute loop of `Compare` (src/unnamed/part_004
lines 267-292) for attribute type `tp`: `none` when the loop body falls
through to the next type, `some c` when it returns `c`. -/
def attrCheck (prev cur : ParsedMessage) (tp : Nat) : Option ChangeType :=
  if tp = INET_DIAG_INFO then
    none
  else
    match getAttr prev tp, getAttr cur tp with
    | none, some _ => some .NewAttribute
    | some _, none => some .LostAttribute
    | none, none => none
    | some a, some b =>
      if a.length ≠ b.length then some .AttributeLength
      else if a ≠ b then some .Other
      else none

/-- The attribute loop of `Compare`, iterating over the given attribute
types in order and returning at the first difference found. -/
def attrLoopList (prev cur : ParsedMessage) : List Nat → ChangeType
  | [] => .NoMajorChange
  | tp :: rest =>
    match attrCheck prev cur tp with
    | some c => c
    | none => attrLoopList prev cur rest

/-- `Compare` (src/unnamed/part_004 lines 240-295).  `bytes.Compare x y
!= 0` is equality failure of the byte slices; Go slicing `v[o:]` and
`v[:o]` are `List.drop` and `List.take`. -/
def Compare (previous current : ParsedMessage) : ChangeType :=
  if previous.idiagState ≠ current.idiagState then .IDiagStateChange
  else
    match getAttr previous INET_DIAG_INFO, getAttr current INET_DIAG_INFO with
    | some a, some b =>
      if a.drop pmtuOffset ≠ b.drop pmtuOffset then .StateOrCounterChange
      else if a.take lastDataSentOffset ≠ b.take lastDataSentOffset then .StateOrCounterChange
      else attrLoopList previous current (List.range previous.attributes.length)
    | _, _ => .NoTCPInfo

end TcpInfo

namespace Saver

/-! ### The saver (src/saver/saver.go)

The `inetdiag`, `netlink`, `cache`, `zstd`, `uuid` and `metrics`
packages the saver imports are not under src/; the pieces of them the
claims need (the parsed `InetDiagMsg` header with its `SockID`, the
`uuid.FromCookie` derivation, the compressed sink) are modelled from the
spec, as marked below.  A marshaller channel is modelled as the list of
tasks enqueued on it, the `Connections` map as an association list, and
`time.Time` as `Int`. -/

/-- Modelled from the spec: the connection identifier of the missing
`inetdiag` package ("source port and destination port, source address
and destination address, interface index, cookie"); the saver reads only
the cookie, a 64-bit unsigned integer. -/
structure SockID where
  sPort : Nat
  dPort : Nat
  src : List Nat
  dst : List Nat
  cookie : Nat
deriving DecidableEq

/-- Modelled from the spec: the parsed `InetDiagMsg` header fields the
saver reads (state, `SockID`, UID, inode). -/
structure InetDiagMsg where
  idiagState : Nat
  id : SockID
  idiagUID : Nat
  idiagInode : Nat
deriving DecidableEq

/-- Modelled from the spec: an `ArchivalRecord` as the saver sees it —
the scan timestamp plus the header, already parsed (`msg.RawIDM.Parse()`
of the missing `netlink` package; records whose header fails to parse
are outside the claims). -/
structure ArchRecord where
  idm : InetDiagMsg
  timestamp : Int
deriving DecidableEq

/-- `Metadata` of the missing `netlink` package, as the spec gives it:
UUID, sequence, start-time.  The UUID is modelled as a `Nat` (see
`uuidFromCookie`). -/
structure Metadata where
  uuid : Nat
  sequence : Nat
  startTime : Int
deriving DecidableEq

/-- One line written to a sink: either the file-header record whose only
field is a `Metadata`, or a marshalled archival record. -/
inductive Line where
  | header : Metadata → Line
  | record : ArchRecord → Line
deriving DecidableEq

/-- The path of a sink, `<yyyy/MM/dd>/<uuid>.<sequence:05d>.jsonl.zst`:
the date directory derived from the start time, the UUID derived from
the cookie, and the zero-padded sequence number. -/
structure SinkPath where
  day : Int
  uuid : Nat
  seq : Nat
deriving DecidableEq

/-- Modelled from the spec: the compressed sink (`zstd.NewWriter`) — an
append-only object remembering its path and the lines written to it. -/
structure Sink where
  path : SinkPath
  lines : List Line
deriving DecidableEq

/-- Modelled from the spec: `uuid.FromCookie` of the external m-lab/uuid
library is deterministic in the cookie ("the same cookie on the same
boot yields the same UUID"), so it is modelled as the identity. -/
def uuidFromCookie (cookie : Nat) : Nat := cookie

/-- `conn.StartTime.Format("2006/01/02")`: the date directory, modelled
as the day number of the start time (seconds). -/
def dateOf (t : Int) : Int := t / 86400

/-- Ten minutes, in seconds: the rotation period added to `Expiration`. -/
def tenMinutes : Int := 600

/-- `Task` (src/saver/saver.go lines 48-52): a nil message means close
the writer. -/
structure Task where
  message : Option ArchRecord
  writer : Option Sink
deriving DecidableEq

/-- `Connection` (src/saver/saver.go lines 91-100). -/
structure Connection where
  inode : Nat
  id : SockID
  uid : Nat
  slice : String
  startTime : Int
  sequence : Nat
  expiration : Int
  writer : Option Sink
deriving DecidableEq

/-- `newConnection` (src/saver/saver.go lines 102-106): `Slice` is empty,
`StartTime` is the record's timestamp, `Sequence` is zero and
`Expiration` is `time.Now()`. -/
def newConnection (info : InetDiagMsg) (timestamp now : Int) : Connection :=
  { inode := info.idiagInode, id := info.id, uid := info.idiagUID,
    slice := "", startTime := timestamp, sequence := 0,
    expiration := now, writer := none }

/-- `Connection.writeHeader` (src/saver/saver.go lines 127-139): write
one line holding only `Metadata{UUID, Sequence, StartTime}` to the
connection's writer. -/
def writeHeader (conn : Connection) : Connection :=
  match conn.writer with
  | none => conn
  | some w =>
    { conn with writer := some { w with lines := w.lines ++
        [Line.header ⟨uuidFromCookie conn.id.cookie, conn.sequence, conn.startTime⟩] } }

/-- `Connection.Rotate` (src/saver/saver.go lines 108-125), success path:
open a fresh sink at `<date>/<uuid>.<sequence:05d>.jsonl.zst`, write the
header line, then advance `Expiration` by ten minutes and increment
`Sequence`.  (When `os.MkdirAll` or `zstd.NewWriter` fails the source
returns early with an error and none of these effects happen; callers
model that with the `rotateOk` flag.) -/
def Rotate (conn : Connection) : Connection :=
  let id := uuidFromCookie conn.id.cookie
  let conn' :=
    { conn with
        writer := some (⟨⟨dateOf conn.startTime, id, conn.sequence⟩, []⟩ : Sink) }
  let conn'' := writeHeader conn'
  let conn''' := { conn'' with expiration := conn''.expiration + tenMinutes }
  { conn''' with sequence := conn'''.sequence + 1 }

/-- `stats` (src/saver/saver.go lines 141-146). -/
structure Stats where
  totalCount : Nat
  newCount : Nat
  diffCount : Nat
  expiredCount : Nat
deriving DecidableEq

/-- The saver state the claims touch: the marshaller channels (each the
list of tasks enqueued on it, in order) and the `Connections` map as an
association list keyed by cookie. -/
structure SaverState where
  marshalChans : List (List Task)
  connections : List (Nat × Connection)
deriving DecidableEq

/-- Enqueue a task on channel `i` (`q <- task`). -/
def sendTask (chans : List (List Task)) (i : Nat) (t : Task) : List (List Task) :=
  chans.set i (chans.getD i [] ++ [t])

/-- Go map lookup `svr.Connections[cookie]`. -/
def connLookup : List (Nat × Connection) → Nat → Option Connection
  | [], _ => none
  | (k, v) :: rest, c => if k = c then some v else connLookup rest c

/-- Go map assignment `svr.Connections[cookie] = conn`. -/
def connSet : List (Nat × Connection) → Nat → Connection → List (Nat × Connection)
  | [], k, v => [(k, v)]
  | (k', v') :: rest, k, v =>
    if k' = k then (k, v) :: rest else (k', v') :: connSet rest k v

/-- Go map deletion `delete(svr.Connections, cookie)`. -/
def connErase (l : List (Nat × Connection)) (k : Nat) : List (Nat × Connection) :=
  l.filter (fun p => p.1 != k)

/-- Errors `queue` can return. -/
inductive QueueErr where
  | zeroCookie : QueueErr
  | noMarshallers : QueueErr
  | rotateFailed : QueueErr
deriving DecidableEq

/-- `tcp.FIN_WAIT1` (value 4) and `tcp.ESTABLISHED` (value 1): linux TCP
states, `FIN_WAIT1` onward meaning closing or closed. -/
def FIN_WAIT1 : Nat := 4

/-- Tail of `Saver.queue` after the connection has been found or created
(src/saver/saver.go lines 255-266): close the expired writer, rotate if
there is no writer (the `rotateOk` flag tells whether `Rotate`'s file
operations succeed), then enqueue the message on channel `qi`. -/
def queueTail (s : SaverState) (qi : Nat) (cookie : Nat) (conn : Connection)
    (msg : ArchRecord) (now : Int) (rotateOk : Bool) :
    SaverState × Option QueueErr :=
  let closed :=
    if conn.expiration < now ∧ conn.writer ≠ none then
      (sendTask s.marshalChans qi ⟨none, conn.writer⟩,
       { conn with writer := none })
    else (s.marshalChans, conn)
  let chans := closed.1
  let conn := closed.2
  if conn.writer = none then
    if rotateOk then
      let conn := Rotate conn
      ({ marshalChans := sendTask chans qi ⟨some msg, conn.writer⟩,
         connections := connSet s.connections cookie conn }, none)
    else
      ({ marshalChans := chans,
         connections := connSet s.connections cookie conn }, some .rotateFailed)
  else
    ({ marshalChans := sendTask chans qi ⟨some msg, conn.writer⟩,
       connections := connSet s.connections cookie conn }, none)

/-- `Saver.queue` (src/saver/saver.go lines 225-267).  The record's
header is already parsed (`msg.idm`); `now` is `time.Now()`. -/
def queue (s : SaverState) (msg : ArchRecord) (now : Int) (rotateOk : Bool) :
    SaverState × Option QueueErr :=
  let idm := msg.idm
  let cookie := idm.id.cookie
  if cookie = 0 then (s, some .zeroCookie)
  else if s.marshalChans.length < 1 then (s, some .noMarshallers)
  else
    let qi := cookie % s.marshalChans.length
    match connLookup s.connections cookie with
    | none =>
      if FIN_WAIT1 ≤ idm.idiagState then (s, none)
      else queueTail s qi cookie (newConnection idm msg.timestamp now) msg now rotateOk
    | some conn => queueTail s qi cookie conn msg now rotateOk

/-- `Saver.endConn` (src/saver/saver.go lines 269-277): only when the
cookie is present AND its writer is non-nil does it enqueue the close
task and delete the map entry. -/
def endConn (s : SaverState) (cookie : Nat) : SaverState :=
  let qi := cookie % s.marshalChans.length
  match connLookup s.connections cookie with
  | some conn =>
    if conn.writer ≠ none then
      { marshalChans := sendTask s.marshalChans qi ⟨none, conn.writer⟩,
        connections := connErase s.connections cookie }
    else s
  | none => s

end Saver

namespace Saver

/-! ### Throughput reporting (src/saver/saver.go lines 331-426) -/

/-- `maxSwitchSpeed` (src/saver/saver.go line 32): 1e10 bits/sec. -/
def maxSwitchSpeed : Nat := 10000000000

/-- The guard bound `10*maxSwitchSpeed/8` used by `MessageSaverLoop`. -/
def reportCap : Nat := 10 * maxSwitchSpeed / 8

/-- The reporting state for one direction: the last reported cumulative
total (`reportedSent` / `reportedReceived`), the error-counter
increments, and the histogram observations made so far (the source
observes `8 * float64(total - reported)` bits). -/
structure RateReport where
  reported : Nat
  errCount : Nat
  observed : List Nat
deriving DecidableEq

/-- One reporting step of `MessageSaverLoop` (src/saver/saver.go lines
390-402 for sent, 404-416 for received): a total that regresses or that
exceeds the last report by more than `reportCap` is rejected — the error
counter is bumped and the reported total is left unchanged; otherwise
the delta is observed and the reported total updated. -/
def reportOne (r : RateReport) (total : Nat) : RateReport :=
  if reportCap + r.reported < total ∨ total < r.reported then
    { r with errCount := r.errCount + 1 }
  else
    { reported := total, errCount := r.errCount,
      observed := r.observed ++ [8 * (total - r.reported)] }

/-- The per-iteration state of `MessageSaverLoop` that the reporting
logic touches. -/
structure LoopState where
  sent : RateReport
  received : RateReport
  lastReportTime : Int
deriving DecidableEq

/-- One iteration of `MessageSaverLoop`'s reporting block for a message
block `(v4Time, totalSent, totalReceived)`: reports happen only when
`msgs.V4Time.Unix() > lastReportTime` (once per wall-clock second). -/
def loopStep (st : LoopState) (inp : Int × Nat × Nat) : LoopState :=
  if st.lastReportTime < inp.1 then
    ⟨reportOne st.sent inp.2.1, reportOne st.received inp.2.2, inp.1⟩
  else st

/-! ### Statistics of `swapAndQueue` (src/saver/saver.go lines 428-476) -/

/-- The outcome of the external calls `swapAndQueue` makes (the `cache`
and `netlink` packages are not under src/): `cache.Update` errors, or
reports no previous record, or yields a previous record after which a
header parse fails, `Compare` fails, or `Compare` yields a change. -/
inductive SwapOutcome where
  | updateErr : SwapOutcome
  | newConn : SwapOutcome
  | prevParseErr : SwapOutcome
  | prevCompareErr : SwapOutcome
  | prevCompare : TcpInfo.ChangeType → SwapOutcome
deriving DecidableEq

/-- The effect of one `swapAndQueue` call on the saver's `stats`:
`IncTotalCount` always fires first; `IncNewCount` fires only when the
cache had no previous record; `IncDiffCount` fires only when `Compare`
succeeded with a change greater than `NoMajorChange`. -/
def swapAndQueueStats (s : Stats) (o : SwapOutcome) : Stats :=
  let s' := { s with totalCount := s.totalCount + 1 }
  match o with
  | .updateErr => s'
  | .newConn => { s' with newCount := s'.newCount + 1 }
  | .prevParseErr => s'
  | .prevCompareErr => s'
  | .prevCompare change =>
    if TcpInfo.ChangeType.toNat TcpInfo.ChangeType.NoMajorChange < change.toNat then
      { s' with diffCount := s'.diffCount + 1 }
    else s'

end Saver

namespace TcpInfo

theorem lastDataSentOffset_eq : lastDataSentOffset = 44 := by decide

theorem pmtuOffset_eq : pmtuOffset = 60 := by decide

theorem linuxTCPInfoSize_eq : linuxTCPInfoSize = 224 := by decide

theorem memInfoSize_eq : memInfoSize = 16 := by decide

theorem bbrInfoSize_eq : bbrInfoSize = 24 := by decide

/-! Helper lemmas about the attribute loop. -/

theorem attrLoopList_of_none (prev cur : ParsedMessage) (l : List Nat)
    (h : ∀ tp ∈ l, attrCheck prev cur tp = none) :
    attrLoopList prev cur l = .NoMajorChange := by
  induction l with
  | nil => rfl
  | cons tp rest ih =>
    have htp := h tp (List.mem_cons_self tp rest)
    simp only [attrLoopList, htp]
    exact ih fun u hu => h u (List.mem_cons_of_mem tp hu)

theorem attrLoopList_append_of_none (prev cur : ParsedMessage) (l₁ l₂ : List Nat)
    (h : ∀ tp ∈ l₁, attrCheck prev cur tp = none) :
    attrLoopList prev cur (l₁ ++ l₂) = attrLoopList prev cur l₂ := by
  induction l₁ with
  | nil => rfl
  | cons tp rest ih =>
    have htp := h tp (List.mem_cons_self tp rest)
    simp only [List.cons_append, attrLoopList, htp]
    exact ih fun u hu => h u (List.mem_cons_of_mem tp hu)

theorem attrLoopList_cons_some (prev cur : ParsedMessage) (tp : Nat)
    (l : List Nat) (c : ChangeType) (h : attrCheck prev cur tp = some c) :
    attrLoopList prev cur (tp :: l) = c := by
  simp only [attrLoopList, h]

/-- Splitting `List.range n` at an interior point `t`. -/
theorem range_split (t n : Nat) (h : t < n) :
    List.range n = List.range t ++ t :: ((List.range (n - t - 1)).map (t + 1 + ·)) := by
  have h1 : n = t + (1 + (n - t - 1)) := by omega
  rw [h1, List.range_add, List.range_add]
  simp [List.range_succ_eq_map, Function.comp_def]
  intro a _
  omega

/-- The loop body falls through for an attribute type whose value is the
same (as an optional byte slice) in both records. -/
theorem attrCheck_eq_none_of_getAttr_eq (prev cur : ParsedMessage) (tp : Nat)
    (h : getAttr prev tp = getAttr cur tp) : attrCheck prev cur tp = none := by
  unfold attrCheck
  by_cases hinfo : tp = INET_DIAG_INFO
  · simp [hinfo]
  · cases hv : getAttr cur tp with
    | none => simp [hinfo, h, hv]
    | some v => simp [hinfo, h, hv]

/-- C1: for records with equal `IDiagState`, both carrying an INFO
attribute (of at least `PmtuOffset` bytes, as `Compare`'s slicing
requires), and all non-INFO attributes identical, `Compare` returns
`NoMajorChange` exactly when the INFO payloads agree outside the
elapsed-time region `[LastDataSentOffset, PmtuOffset)`, and
`StateOrCounterChange` exactly when they differ somewhere in
`[0, LastDataSentOffset)` or at or after `PmtuOffset`. -/
theorem compare_info_elapsed_region (p c : ParsedMessage) (a b : List Nat)
    (hstate : p.idiagState = c.idiagState)
    (ha : getAttr p INET_DIAG_INFO = some a)
    (hb : getAttr c INET_DIAG_INFO = some b)
    (_hla : pmtuOffset ≤ a.length) (_hlb : pmtuOffset ≤ b.length)
    (hattrs : ∀ tp < p.attributes.length, tp ≠ INET_DIAG_INFO →
        getAttr p tp = getAttr c tp) :
    (Compare p c = .NoMajorChange ↔
        (a.take lastDataSentOffset = b.take lastDataSentOffset ∧
         a.drop pmtuOffset = b.drop pmtuOffset)) ∧
    (Compare p c = .StateOrCounterChange ↔
        ¬(a.take lastDataSentOffset = b.take lastDataSentOffset ∧
          a.drop pmtuOffset = b.drop pmtuOffset)) := by
  have hloop : attrLoopList p c (List.range p.attributes.length) = .NoMajorChange := by
    apply attrLoopList_of_none
    intro tp htp
    by_cases hinfo : tp = INET_DIAG_INFO
    · simp [attrCheck, hinfo]
    · exact attrCheck_eq_none_of_getAttr_eq p c tp
        (hattrs tp (List.mem_range.mp htp) hinfo)
  by_cases hd : a.drop pmtuOffset = b.drop pmtuOffset
  · by_cases ht : a.take lastDataSentOffset = b.take lastDataSentOffset
    · have hcomp : Compare p c = .NoMajorChange := by
        simp only [Compare, hstate, ne_eq, not_true_eq_false, if_false, ha, hb,
          hd, ht, not_false_eq_true]
        simp [hloop]
      rw [hcomp]
      constructor
      · simp [ht, hd]
      · simp [ht, hd]
    · have hcomp : Compare p c = .StateOrCounterChange := by
        simp only [Compare, hstate, ne_eq, not_true_eq_false, if_false, ha, hb]
        simp [hd, ht]
      rw [hcomp]
      constructor
      · simp [ht]
      · simp [ht]
  · have hcomp : Compare p c = .StateOrCounterChange := by
      simp only [Compare, hstate, ne_eq, not_true_eq_false, if_false, ha, hb]
      simp [hd]
    rw [hcomp]
    constructor
    · simp [hd]
    · simp [hd]

/-- C1 witness: bumping a counter byte after `PmtuOffset` yields
`StateOrCounterChange`, while touching only the elapsed-time region
yields `NoMajorChange`. -/
theorem compare_info_elapsed_region_witness :
    Compare ⟨1, [none, none, some (List.replicate 224 0), none]⟩
        ⟨1, [none, none, some (List.replicate 44 0 ++ 9 :: List.replicate 179 0), none]⟩
      = .NoMajorChange ∧
    Compare ⟨1, [none, none, some (List.replicate 224 0), none]⟩
        ⟨1, [none, none, some (List.replicate 223 0 ++ [7]), none]⟩
      = .StateOrCounterChange := by
  constructor
  · have hattrs : ∀ tp < 4, tp ≠ INET_DIAG_INFO →
        getAttr ⟨1, [none, none, some (List.replicate 224 0), none]⟩ tp =
        getAttr ⟨1, [none, none, some (List.replicate 44 0 ++ 9 :: List.replicate 179 0), none]⟩ tp := by
      decide
    exact (compare_info_elapsed_region
      ⟨1, [none, none, some (List.replicate 224 0), none]⟩
      ⟨1, [none, none, some (List.replicate 44 0 ++ 9 :: List.replicate 179 0), none]⟩
      (List.replicate 224 0) (List.replicate 44 0 ++ 9 :: List.replicate 179 0)
      rfl rfl rfl (by decide) (by decide) hattrs).1.mpr (by decide)
  · have hattrs : ∀ tp < 4, tp ≠ INET_DIAG_INFO →
        getAttr ⟨1, [none, none, some (List.replicate 224 0), none]⟩ tp =
        getAttr ⟨1, [none, none, some (List.replicate 223 0 ++ [7]), none]⟩ tp := by
      decide
    exact (compare_info_elapsed_region
      ⟨1, [none, none, some (List.replicate 224 0), none]⟩
      ⟨1, [none, none, some (List.replicate 223 0 ++ [7]), none]⟩
      (List.replicate 224 0) (List.replicate 223 0 ++ [7])
      rfl rfl rfl (by decide) (by decide) hattrs).2.mpr (by decide)

/-- C2: for a raw INFO value shorter than `sizeof(LinuxTCPInfo)`,
`ToLinuxTCPInfo` (via `MaybeCopy`) takes the copy branch, producing a
view over a fresh buffer of exactly `sizeof(LinuxTCPInfo)` bytes whose
first `len(raw)` bytes equal the input and whose remaining bytes are all
zero.  (The embedding is pure, so the input value itself is untouched;
`fresh = true` records that the returned pointer does not alias it.) -/
theorem toLinuxTCPInfo_short_padding (raw : List Nat)
    (h : raw.length < linuxTCPInfoSize) :
    (ToLinuxTCPInfo raw).fresh = true ∧
    (ToLinuxTCPInfo raw).buf.length = linuxTCPInfoSize ∧
    (ToLinuxTCPInfo raw).buf.take raw.length = raw ∧
    (ToLinuxTCPInfo raw).buf.drop raw.length =
      List.replicate (linuxTCPInfoSize - raw.length) 0 := by
  unfold ToLinuxTCPInfo MaybeCopy
  rw [if_pos h]
  refine ⟨rfl, ?_, ?_, ?_⟩
  · simp only [List.length_append, List.length_replicate]
    omega
  · exact List.take_left raw _
  · exact List.drop_left raw _

/-- C2 witness at the concrete truncated payload `[1, 2, 3]`. -/
theorem toLinuxTCPInfo_short_padding_witness :
    (ToLinuxTCPInfo [1, 2, 3]).fresh = true ∧
    (ToLinuxTCPInfo [1, 2, 3]).buf.length = linuxTCPInfoSize ∧
    (ToLinuxTCPInfo [1, 2, 3]).buf.take (List.length [1, 2, 3]) = [1, 2, 3] ∧
    (ToLinuxTCPInfo [1, 2, 3]).buf.drop (List.length [1, 2, 3]) =
      List.replicate (linuxTCPInfoSize - List.length [1, 2, 3]) 0 :=
  toLinuxTCPInfo_short_padding [1, 2, 3] (by decide)

/-- C3: `ToBBRInfo` does NOT follow the uniform zero-pad policy.  It
sizes its buffer with `unsafe.Sizeof(MemInfo{}) = 16` instead of
`unsafe.Sizeof(BBRInfo{}) = 24`: a 16-byte raw value (shorter than
`BBRInfo`) is viewed in place, with no fresh zero-padded buffer of size
`sizeof(BBRInfo)`, so reading the trailing `BBRInfo` fields reaches
beyond the 16-byte buffer the struct views. -/
theorem toBBRInfo_wrong_size :
    bbrInfoSize = 24 ∧
    (ToBBRInfo (List.replicate 16 0)).fresh = false ∧
    (ToBBRInfo (List.replicate 16 0)).buf.length = 16 ∧
    (ToBBRInfo (List.replicate 16 0)).buf.length < bbrInfoSize := by decide

/-- C4 counterexample: records with equal state, identical INFO
attributes, attribute type 3 present only in `previous` and attribute
type 5 present only in `current`.  Type 5 is present in `current` but
absent in `previous`, yet `Compare` returns `LostAttribute`, not
`NewAttribute`: the loop returns at the first index whose presence
differs. -/
theorem compare_presence_counterexample :
    getAttr ⟨1, [none, none, some (List.replicate 60 0), some [1], none, none]⟩ 5 = none ∧
    getAttr ⟨1, [none, none, some (List.replicate 60 0), none, none, some [1]]⟩ 5 = some [1] ∧
    Compare ⟨1, [none, none, some (List.replicate 60 0), some [1], none, none]⟩
        ⟨1, [none, none, some (List.replicate 60 0), none, none, some [1]]⟩
      = .LostAttribute ∧
    Compare ⟨1, [none, none, some (List.replicate 60 0), some [1], none, none]⟩
        ⟨1, [none, none, some (List.replicate 60 0), none, none, some [1]]⟩
      ≠ .NewAttribute := by decide

/-- C4 (amended): under equal state, INFO present in both and equal in
the compared regions, and equal values for every attribute type present
in both records, `Compare` classifies by the smallest attribute type `t`
at which presence differs: `LostAttribute` when `t` is present only in
`previous`, `NewAttribute` when `t` is present only in `current`
(including types that occur only in `current`). -/
theorem compare_first_presence_difference (p c : ParsedMessage)
    (a b : List Nat) (t : Nat)
    (hstate : p.idiagState = c.idiagState)
    (ha : getAttr p INET_DIAG_INFO = some a)
    (hb : getAttr c INET_DIAG_INFO = some b)
    (hd : a.drop pmtuOffset = b.drop pmtuOffset)
    (ht : a.take lastDataSentOffset = b.take lastDataSentOffset)
    (hshared : ∀ tp < p.attributes.length,
        (tp ≠ INET_DIAG_INFO ∧ (getAttr p tp).isSome ∧ (getAttr c tp).isSome) →
        getAttr p tp = getAttr c tp)
    (htlen : t < p.attributes.length) (htinfo : t ≠ INET_DIAG_INFO)
    (hdiff : (getAttr p t).isSome ≠ (getAttr c t).isSome)
    (hmin : ∀ u < t, u ≠ INET_DIAG_INFO →
        (getAttr p u).isSome = (getAttr c u).isSome) :
    Compare p c = if (getAttr p t).isSome then .LostAttribute
                  else .NewAttribute := by
  have hcomp : Compare p c = attrLoopList p c (List.range p.attributes.length) := by
    simp only [Compare, hstate, ne_eq, not_true_eq_false, if_false, ha, hb]
    simp [hd, ht]
  rw [hcomp, range_split t p.attributes.length htlen,
    attrLoopList_append_of_none]
  · cases hp : getAttr p t with
    | none =>
      cases hc : getAttr c t with
      | none => rw [hp, hc] at hdiff; simp at hdiff
      | some v =>
        rw [attrLoopList_cons_some p c t _ ChangeType.NewAttribute
          (by simp [attrCheck, htinfo, hp, hc])]
        simp
    | some v =>
      cases hc : getAttr c t with
      | none =>
        rw [attrLoopList_cons_some p c t _ ChangeType.LostAttribute
          (by simp [attrCheck, htinfo, hp, hc])]
        simp
      | some w => rw [hp, hc] at hdiff; simp at hdiff
  · intro u hu
    have hu' : u < t := List.mem_range.mp hu
    by_cases hinfo : u = INET_DIAG_INFO
    · simp [attrCheck, hinfo]
    · have hpres := hmin u hu' hinfo
      cases hp : getAttr p u with
      | none =>
        cases hc : getAttr c u with
        | none => simp [attrCheck, hinfo, hp, hc]
        | some w => rw [hp, hc] at hpres; simp at hpres
      | some v =>
        cases hc : getAttr c u with
        | none => rw [hp, hc] at hpres; simp at hpres
        | some w =>
          have heq : getAttr p u = getAttr c u :=
            hshared u (lt_trans hu' htlen)
              ⟨hinfo, by rw [hp]; rfl, by rw [hc]; rfl⟩
          exact attrCheck_eq_none_of_getAttr_eq p c u heq

/-- C4 (amended) witness: attribute type 3 present only in `previous`
(and it is the smallest presence difference), so `Compare` returns
`LostAttribute`. -/
theorem compare_first_presence_difference_witness :
    Compare ⟨1, [none, none, some (List.replicate 60 0), some [1]]⟩
        ⟨1, [none, none, some (List.replicate 60 0), none]⟩
      = .LostAttribute := by
  have hshared : ∀ tp < 4,
      (tp ≠ INET_DIAG_INFO ∧
        (getAttr ⟨1, [none, none, some (List.replicate 60 0), some [1]]⟩ tp).isSome ∧
        (getAttr ⟨1, [none, none, some (List.replicate 60 0), none]⟩ tp).isSome) →
      getAttr ⟨1, [none, none, some (List.replicate 60 0), some [1]]⟩ tp =
      getAttr ⟨1, [none, none, some (List.replicate 60 0), none]⟩ tp := by
    decide
  have h := compare_first_presence_difference
    ⟨1, [none, none, some (List.replicate 60 0), some [1]]⟩
    ⟨1, [none, none, some (List.replicate 60 0), none]⟩
    (List.replicate 60 0) (List.replicate 60 0) 3
    rfl rfl rfl rfl rfl hshared (by decide) (by decide) (by decide)
    (by decide)
  simpa using h

end TcpInfo

namespace Saver

/-! ### Helper lemmas for the saver state -/

theorem connLookup_connSet_self (l : List (Nat × Connection)) (k : Nat)
    (v : Connection) : connLookup (connSet l k v) k = some v := by
  induction l with
  | nil => simp [connSet, connLookup]
  | cons p rest ih =>
    by_cases h : p.1 = k
    · simp [connSet, h, connLookup]
    · simp [connSet, h, connLookup, ih]

theorem connLookup_connSet_ne (l : List (Nat × Connection)) (k k' : Nat)
    (v : Connection) (h : k' ≠ k) :
    connLookup (connSet l k v) k' = connLookup l k' := by
  induction l with
  | nil =>
    simp only [connSet, connLookup]
    rw [if_neg (fun hh => h hh.symm)]
  | cons p rest ih =>
    by_cases hp : p.1 = k
    · simp only [connSet, if_pos hp, connLookup]
      rw [if_neg (fun hh => h hh.symm),
        if_neg (by rw [hp]; exact fun hh => h hh.symm)]
    · simp only [connSet, if_neg hp, connLookup]
      by_cases hk : p.1 = k'
      · simp [hk]
      · simp [hk, ih]

theorem connLookup_connErase_self (l : List (Nat × Connection)) (k : Nat) :
    connLookup (connErase l k) k = none := by
  induction l with
  | nil => rfl
  | cons p rest ih =>
    by_cases h : p.1 = k
    · simpa [connErase, h] using ih
    · simpa [connErase, h, connLookup] using ih

theorem connLookup_connErase_ne (l : List (Nat × Connection)) (k k' : Nat)
    (h : k' ≠ k) : connLookup (connErase l k) k' = connLookup l k' := by
  induction l with
  | nil => rfl
  | cons p rest ih =>
    by_cases hp : p.1 = k
    · rw [show connErase (p :: rest) k = connErase rest k by simp [connErase, hp]]
      rw [ih, connLookup, if_neg (by rw [hp]; exact fun hh => h hh.symm)]
    · rw [show connErase (p :: rest) k = p :: connErase rest k by simp [connErase, hp]]
      by_cases hk : p.1 = k'
      · simp [connLookup, hk]
      · simp [connLookup, hk, ih]

theorem getD_set_self {α : Type} (l : List α) (i : Nat) (x d : α)
    (h : i < l.length) : (l.set i x).getD i d = x := by
  induction l generalizing i with
  | nil => simp at h
  | cons a rest ih =>
    cases i with
    | zero => rfl
    | succ j =>
      simp only [List.set, List.getD, List.getElem?_cons_succ]
      have := ih j (by simpa using h)
      simpa [List.getD] using this

theorem getD_set_ne {α : Type} (l : List α) (i j : Nat) (x d : α)
    (h : j ≠ i) : (l.set i x).getD j d = l.getD j d := by
  induction l generalizing i j with
  | nil => rfl
  | cons a rest ih =>
    cases i with
    | zero =>
      cases j with
      | zero => exact absurd rfl h
      | succ j' => rfl
    | succ i' =>
      cases j with
      | zero => rfl
      | succ j' =>
        simp only [List.set, List.getD, List.getElem?_cons_succ]
        have := ih i' j' (by omega)
        simpa [List.getD] using this

/-- `Rotate` leaves every `Connection` field except `Writer`,
`Expiration` and `Sequence` unchanged, and the claim-relevant effects. -/
theorem Rotate_startTime (conn : Connection) :
    (Rotate conn).startTime = conn.startTime := by
  simp [Rotate, writeHeader]

end Saver

namespace Saver

/-- Whatever branch `queueTail` takes, it stores into the map a
connection with `conn`'s start time. -/
theorem queueTail_connections (s : SaverState) (qi cookie : Nat)
    (conn : Connection) (msg : ArchRecord) (now : Int) (rk : Bool) :
    ∃ x : Connection,
      (queueTail s qi cookie conn msg now rk).1.connections =
        connSet s.connections cookie x ∧
      x.startTime = conn.startTime := by
  unfold queueTail
  by_cases hclose : conn.expiration < now ∧ conn.writer ≠ none
  · simp only [if_pos hclose]
    by_cases hrk : rk
    · exact ⟨Rotate { conn with writer := none }, by simp [hrk],
        by rw [Rotate_startTime]⟩
    · exact ⟨{ conn with writer := none }, by simp [hrk], rfl⟩
  · simp only [if_neg hclose]
    by_cases hw : conn.writer = none
    · by_cases hrk : rk
      · exact ⟨Rotate conn, by simp [hw, hrk], by rw [Rotate_startTime]⟩
      · exact ⟨conn, by simp [hw, hrk], rfl⟩
    · exact ⟨conn, by simp [hw], rfl⟩

/-- C5: a record whose parsed cookie is zero makes `queue` return the
zero-cookie error with the saver state untouched — no connection
created or modified, no task enqueued on any marshaller channel (and
hence no file opened). -/
theorem queue_zero_cookie (s : SaverState) (msg : ArchRecord) (now : Int)
    (rk : Bool) (h : msg.idm.id.cookie = 0) :
    queue s msg now rk = (s, some .zeroCookie) := by
  simp [queue, h]

/-- C5 witness at a concrete zero-cookie record. -/
theorem queue_zero_cookie_witness :
    queue ⟨[[]], []⟩ ⟨⟨1, ⟨10, 20, [], [], 0⟩, 3, 4⟩, 5⟩ 0 true =
      (⟨[[]], []⟩, some .zeroCookie) :=
  queue_zero_cookie ⟨[[]], []⟩ ⟨⟨1, ⟨10, 20, [], [], 0⟩, 3, 4⟩, 5⟩ 0 true rfl

/-- C6: for a record with a fresh non-zero cookie, `queue` returns `nil`
and leaves the saver completely unchanged (no connection, no file, no
task) when the parsed state is `FIN_WAIT1` or later, and otherwise
creates a connection whose `StartTime` is the record's timestamp. -/
theorem queue_unseen_cookie (s : SaverState) (msg : ArchRecord) (now : Int)
    (rk : Bool) (hc : msg.idm.id.cookie ≠ 0)
    (hn : 0 < s.marshalChans.length)
    (hl : connLookup s.connections msg.idm.id.cookie = none) :
    (FIN_WAIT1 ≤ msg.idm.idiagState → queue s msg now rk = (s, none)) ∧
    (msg.idm.idiagState < FIN_WAIT1 →
      Option.map Connection.startTime
        (connLookup (queue s msg now rk).1.connections msg.idm.id.cookie) =
        some msg.timestamp) := by
  constructor
  · intro hst
    simp [queue, hc, hl, hst, Nat.not_lt.mpr hn]
  · intro hst
    have hq : (queue s msg now rk).1 =
        (queueTail s (msg.idm.id.cookie % s.marshalChans.length)
          msg.idm.id.cookie (newConnection msg.idm msg.timestamp now)
          msg now rk).1 := by
      simp [queue, hc, hl, Nat.not_le.mpr hst, Nat.not_lt.mpr hn]
    rw [hq]
    obtain ⟨x, hx, hst'⟩ := queueTail_connections s
      (msg.idm.id.cookie % s.marshalChans.length) msg.idm.id.cookie
      (newConnection msg.idm msg.timestamp now) msg now rk
    rw [hx, connLookup_connSet_self]
    simp [hst', newConnection]

/-- C6 witness: a fresh cookie in `TIME_WAIT (6)` is skipped with the
state unchanged; a fresh cookie in `ESTABLISHED (1)` gets a connection
whose start time is the record's timestamp `100`. -/
theorem queue_unseen_cookie_witness :
    queue ⟨[[]], []⟩ ⟨⟨6, ⟨10, 20, [], [], 7⟩, 3, 4⟩, 100⟩ 50 true =
      (⟨[[]], []⟩, none) ∧
    Option.map Connection.startTime
      (connLookup (queue ⟨[[]], []⟩ ⟨⟨1, ⟨10, 20, [], [], 7⟩, 3, 4⟩, 100⟩ 50 true).1.connections 7) =
      some 100 := by
  constructor
  · exact (queue_unseen_cookie ⟨[[]], []⟩ ⟨⟨6, ⟨10, 20, [], [], 7⟩, 3, 4⟩, 100⟩
      50 true (by decide) (by decide) (by decide)).1 (by decide)
  · exact (queue_unseen_cookie ⟨[[]], []⟩ ⟨⟨1, ⟨10, 20, [], [], 7⟩, 3, 4⟩, 100⟩
      50 true (by decide) (by decide) (by decide)).2 (by decide)

end Saver

namespace Saver

/-- C8: a successful `Rotate` opens the sink at
`<StartTime-date>/<uuid-from-cookie>.<Sequence:05d>.jsonl.zst` using the
pre-call `Sequence`, whose first and only write so far is the header
line `Metadata{UUID, pre-call Sequence, StartTime}`; it advances
`Expiration` by exactly ten minutes, increments `Sequence` by exactly
one, and leaves `Inode`, `ID`, `UID`, `Slice` and `StartTime`
unchanged. -/
theorem Rotate_spec (conn : Connection) :
    (Rotate conn).writer =
      some ⟨⟨dateOf conn.startTime, uuidFromCookie conn.id.cookie, conn.sequence⟩,
        [Line.header ⟨uuidFromCookie conn.id.cookie, conn.sequence, conn.startTime⟩]⟩ ∧
    (Rotate conn).expiration = conn.expiration + tenMinutes ∧
    (Rotate conn).sequence = conn.sequence + 1 ∧
    (Rotate conn).inode = conn.inode ∧
    (Rotate conn).id = conn.id ∧
    (Rotate conn).uid = conn.uid ∧
    (Rotate conn).slice = conn.slice ∧
    (Rotate conn).startTime = conn.startTime := by
  refine ⟨?_, ?_, ?_, ?_, ?_, ?_, ?_, ?_⟩ <;> simp [Rotate, writeHeader]

/-- C9 counterexample: a connection present in the map whose `Writer` is
nil.  `endConn` neither enqueues a close task (the only channel stays
empty) nor removes the cookie — the state is returned unchanged — while
the claim requires the task to be enqueued and the cookie removed for
every present cookie, regardless of a nil `Writer`. -/
theorem endConn_nil_writer_counterexample :
    connLookup [(5, (⟨0, ⟨0, 0, [], [], 5⟩, 0, "", 0, 0, 0, none⟩ : Connection))] 5 =
      some (⟨0, ⟨0, 0, [], [], 5⟩, 0, "", 0, 0, 0, none⟩ : Connection) ∧
    endConn ⟨[[]], [(5, (⟨0, ⟨0, 0, [], [], 5⟩, 0, "", 0, 0, 0, none⟩ : Connection))]⟩ 5 =
      ⟨[[]], [(5, (⟨0, ⟨0, 0, [], [], 5⟩, 0, "", 0, 0, 0, none⟩ : Connection))]⟩ := by
  constructor
  · rfl
  · rfl

end Saver

namespace Saver

/-- C9 (amended): for a cookie present in the `Connections` map of a
saver with `N ≥ 1` marshallers, when the connection's `Writer` is
non-nil, `endConn` appends a close task carrying that writer to the
channel at index `cookie mod N`, leaves every other channel unchanged,
and removes the cookie from the map leaving other entries untouched;
when the `Writer` is nil, `endConn` does nothing at all — no task is
enqueued and the cookie stays in the map. -/
theorem endConn_spec (s : SaverState) (cookie : Nat) (conn : Connection)
    (hn : 0 < s.marshalChans.length)
    (h : connLookup s.connections cookie = some conn) :
    (conn.writer ≠ none →
      connLookup (endConn s cookie).connections cookie = none ∧
      (∀ c', c' ≠ cookie →
        connLookup (endConn s cookie).connections c' = connLookup s.connections c') ∧
      (endConn s cookie).marshalChans.getD (cookie % s.marshalChans.length) [] =
        s.marshalChans.getD (cookie % s.marshalChans.length) [] ++
          [⟨none, conn.writer⟩] ∧
      (∀ j, j ≠ cookie % s.marshalChans.length →
        (endConn s cookie).marshalChans.getD j [] = s.marshalChans.getD j [])) ∧
    (conn.writer = none → endConn s cookie = s) := by
  constructor
  · intro hw
    have he : endConn s cookie =
        ⟨sendTask s.marshalChans (cookie % s.marshalChans.length) ⟨none, conn.writer⟩,
         connErase s.connections cookie⟩ := by
      simp [endConn, h, hw]
    rw [he]
    refine ⟨connLookup_connErase_self _ _, ?_, ?_, ?_⟩
    · intro c' hc'
      exact connLookup_connErase_ne _ _ _ hc'
    · exact getD_set_self _ _ _ _ (Nat.mod_lt _ hn)
    · intro j hj
      exact getD_set_ne _ _ _ _ _ hj
  · intro hw
    simp [endConn, h, hw]

/-- C9 (amended) witness: with one marshaller and a connection holding
an open sink at cookie 5, `endConn 5` empties the map entry and enqueues
the close task on channel `5 mod 1 = 0`. -/
theorem endConn_spec_witness :
    connLookup (endConn ⟨[[]],
        [(5, (⟨0, ⟨0, 0, [], [], 5⟩, 0, "", 0, 0, 0,
          some ⟨⟨0, 5, 0⟩, []⟩⟩ : Connection))]⟩ 5).connections 5 = none ∧
    (endConn ⟨[[]],
        [(5, (⟨0, ⟨0, 0, [], [], 5⟩, 0, "", 0, 0, 0,
          some ⟨⟨0, 5, 0⟩, []⟩⟩ : Connection))]⟩ 5).marshalChans.getD 0 [] =
      [] ++ [⟨none, some ⟨⟨0, 5, 0⟩, []⟩⟩] := by
  have h := endConn_spec ⟨[[]],
      [(5, (⟨0, ⟨0, 0, [], [], 5⟩, 0, "", 0, 0, 0,
        some ⟨⟨0, 5, 0⟩, []⟩⟩ : Connection))]⟩ 5
      (⟨0, ⟨0, 0, [], [], 5⟩, 0, "", 0, 0, 0, some ⟨⟨0, 5, 0⟩, []⟩⟩ : Connection)
      (by decide) (by decide)
  have h2 := h.1 (by decide)
  exact ⟨h2.1, h2.2.2.1⟩

end Saver

namespace Saver

/-- An accepted or rejected report never lowers the reported total. -/
theorem reportOne_mono (r : RateReport) (total : Nat) :
    r.reported ≤ (reportOne r total).reported := by
  unfold reportOne
  split
  · exact le_refl _
  · next hcond =>
    push_neg at hcond
    exact hcond.2

/-- One loop iteration never lowers either reported total. -/
theorem loopStep_mono (st : LoopState) (inp : Int × Nat × Nat) :
    st.sent.reported ≤ (loopStep st inp).sent.reported ∧
    st.received.reported ≤ (loopStep st inp).received.reported := by
  unfold loopStep
  split
  · exact ⟨reportOne_mono _ _, reportOne_mono _ _⟩
  · exact ⟨le_refl _, le_refl _⟩

theorem foldl_loopStep_mono (l : List (Int × Nat × Nat)) (st : LoopState) :
    st.sent.reported ≤ (List.foldl loopStep st l).sent.reported ∧
    st.received.reported ≤ (List.foldl loopStep st l).received.reported := by
  induction l generalizing st with
  | nil => exact ⟨le_refl _, le_refl _⟩
  | cons i rest ih =>
    refine ⟨le_trans (loopStep_mono st i).1 ?_, le_trans (loopStep_mono st i).2 ?_⟩
    · exact (ih (loopStep st i)).1
    · exact (ih (loopStep st i)).2

/-- C7: along any run of `MessageSaverLoop` iterations the reported
totals never decrease; a report whose total regresses below the last
reported total or exceeds it by more than `10*maxSwitchSpeed/8` bytes is
rejected — the reported total is unchanged, the error counter is
incremented, the histogram is not observed; and an accepted report
updates the reported total and appends its delta (in bits) to the
histogram without touching the error counter. -/
theorem message_saver_loop_report (st : LoopState) (l : List (Int × Nat × Nat))
    (r : RateReport) (total : Nat) :
    st.sent.reported ≤ (List.foldl loopStep st l).sent.reported ∧
    st.received.reported ≤ (List.foldl loopStep st l).received.reported ∧
    (total < r.reported ∨ reportCap + r.reported < total →
      (reportOne r total).reported = r.reported ∧
      (reportOne r total).errCount = r.errCount + 1 ∧
      (reportOne r total).observed = r.observed) ∧
    (r.reported ≤ total → total ≤ reportCap + r.reported →
      (reportOne r total).reported = total ∧
      (reportOne r total).errCount = r.errCount ∧
      (reportOne r total).observed = r.observed ++ [8 * (total - r.reported)]) := by
  refine ⟨(foldl_loopStep_mono l st).1, (foldl_loopStep_mono l st).2, ?_, ?_⟩
  · intro hrej
    unfold reportOne
    rw [if_pos (by omega)]
    exact ⟨rfl, rfl, rfl⟩
  · intro h1 h2
    unfold reportOne
    rw [if_neg (by omega)]
    exact ⟨rfl, rfl, rfl⟩

/-- C7 witness: from a reported total of 5, a regressing total of 3 is
rejected (counter bumped, total kept), a total of 7 is accepted
(total updated, delta 2 bytes observed as 16 bits), and a fold never
lowers the reported total. -/
theorem message_saver_loop_report_witness :
    (5 : Nat) ≤ (List.foldl loopStep ⟨⟨5, 0, []⟩, ⟨5, 0, []⟩, 0⟩ [(1, 3, 7)]).sent.reported ∧
    (reportOne ⟨5, 0, []⟩ 3).reported = 5 ∧
    (reportOne ⟨5, 0, []⟩ 3).errCount = 1 ∧
    (reportOne ⟨5, 0, []⟩ 3).observed = [] ∧
    (reportOne ⟨5, 0, []⟩ 7).reported = 7 ∧
    (reportOne ⟨5, 0, []⟩ 7).errCount = 0 ∧
    (reportOne ⟨5, 0, []⟩ 7).observed = [16] := by
  have h1 := message_saver_loop_report ⟨⟨5, 0, []⟩, ⟨5, 0, []⟩, 0⟩ [(1, 3, 7)] ⟨5, 0, []⟩ 3
  have h2 := message_saver_loop_report ⟨⟨5, 0, []⟩, ⟨5, 0, []⟩, 0⟩ [] ⟨5, 0, []⟩ 7
  have hrej := h1.2.2.1 (Or.inl (by decide))
  have hacc := h2.2.2.2 (by decide) (by decide)
  exact ⟨h1.1, hrej.1, hrej.2.1, hrej.2.2, hacc.1, hacc.2.1,
    by simpa using hacc.2.2⟩

/-- The per-call stats invariant is preserved by one `swapAndQueue`. -/
theorem swapAndQueueStats_invariant (s : Stats) (o : SwapOutcome)
    (h : s.newCount + s.diffCount ≤ s.totalCount) :
    (swapAndQueueStats s o).newCount + (swapAndQueueStats s o).diffCount ≤
      (swapAndQueueStats s o).totalCount := by
  cases o with
  | updateErr => simpa [swapAndQueueStats] using by omega
  | newConn => simpa [swapAndQueueStats] using by omega
  | prevParseErr => simpa [swapAndQueueStats] using by omega
  | prevCompareErr => simpa [swapAndQueueStats] using by omega
  | prevCompare change =>
    simp only [swapAndQueueStats]
    split
    · simpa using by omega
    · simpa using by omega

theorem foldl_swapAndQueueStats_invariant (l : List SwapOutcome) (s : Stats)
    (h : s.newCount + s.diffCount ≤ s.totalCount) :
    (List.foldl swapAndQueueStats s l).newCount +
      (List.foldl swapAndQueueStats s l).diffCount ≤
      (List.foldl swapAndQueueStats s l).totalCount := by
  induction l generalizing s with
  | nil => exact h
  | cons o rest ih =>
    exact ih (swapAndQueueStats s o) (swapAndQueueStats_invariant s o h)

/-- C10: each `swapAndQueue` call increments `TotalCount` by exactly one
and at most one of `NewCount` and `DiffCount`, by at most one; hence
starting from `NewSaver`'s zeroed stats, after any sequence of calls
`TotalCount ≥ NewCount + DiffCount`, so the derived "same" count
`TotalCount - (NewCount + DiffCount)` is never negative. -/
theorem swapAndQueue_stats_bound (s : Stats) (o : SwapOutcome)
    (l : List SwapOutcome) :
    (swapAndQueueStats s o).totalCount = s.totalCount + 1 ∧
    s.newCount ≤ (swapAndQueueStats s o).newCount ∧
    (swapAndQueueStats s o).newCount ≤ s.newCount + 1 ∧
    s.diffCount ≤ (swapAndQueueStats s o).diffCount ∧
    (swapAndQueueStats s o).diffCount ≤ s.diffCount + 1 ∧
    (swapAndQueueStats s o).newCount + (swapAndQueueStats s o).diffCount ≤
      s.newCount + s.diffCount + 1 ∧
    (List.foldl swapAndQueueStats ⟨0, 0, 0, 0⟩ l).newCount +
      (List.foldl swapAndQueueStats ⟨0, 0, 0, 0⟩ l).diffCount ≤
      (List.foldl swapAndQueueStats ⟨0, 0, 0, 0⟩ l).totalCount := by
  refine ⟨?_, ?_, ?_, ?_, ?_, ?_,
    foldl_swapAndQueueStats_invariant l ⟨0, 0, 0, 0⟩ (by simp)⟩ <;>
    cases o <;> simp only [swapAndQueueStats] <;> (try split) <;>
    (try simp) <;> (try omega)

end Saver
